import Mathlib

/-!
Verification of the mmr-strategy data pipeline core.

The Python sources model a daily price series as a dict from ISO date
strings ("YYYY-MM-DD") to records with numeric fields `open`, `close`,
`overnight_rate`, `day_rate`, `rate` (and, in some files, `sma200`).

Embedding conventions:
* ISO date strings are compared lexicographically in the source
  (`sorted`, `min`, `max`); this order is isomorphic to the numeric
  YYYYMMDD encoding, so dates are modelled as `ℕ` (e.g. 20240102).
* A dict is modelled as an association list `List (ℕ × Bar)`; Python
  dict keys are unique, which appears as a `Nodup` hypothesis where a
  theorem needs it.
* Python floats are modelled as exact rationals `ℚ`; `round(x, 6)` is
  modelled as `round6` (rounding to the nearest multiple of 1e-6; the
  half-way tie behaviour differs from Python's round-half-to-even, but
  no value in this development falls on a tie).
* Python `sorted` is modelled by `List.insertionSort`, which is
  kernel-computable; on the duplicate-free key lists of the source the
  two sorts agree.
* Python float division raises `ZeroDivisionError` on a zero divisor;
  the one place the source can actually divide by zero
  (`adjust_real_soxl_to_simulated`) is embedded with `Except` making
  that exception explicit.
-/

/-- One trading day of one instrument.  `popen`/`pclose` model the JSON
fields "open"/"close" (`open` is a Lean keyword); the three rate fields
keep their source names. -/
structure Bar where
  popen : ℚ
  pclose : ℚ
  overnight_rate : ℚ
  day_rate : ℚ
  rate : ℚ
deriving DecidableEq

instance : Inhabited Bar := ⟨⟨0, 0, 0, 0, 0⟩⟩

/-- A price series: the entries of a Python dict from date to bar. -/
abbrev Series := List (ℕ × Bar)

/-- Python `round(x, 6)`, used on every persisted rate/price. -/
def round6 (x : ℚ) : ℚ := (round (x * 1000000) : ℤ) / 1000000

theorem round6_eq (x : ℚ) : round6 x = (⌊x * 1000000 + 1/2⌋ : ℤ) / 1000000 := by
  rw [round6, round_eq]

/-- Key order on dict entries: compare the date component. -/
def keyLe {β : Type} (a b : ℕ × β) : Prop := a.1 ≤ b.1

instance {β : Type} : DecidableRel (@keyLe β) :=
  fun a b => inferInstanceAs (Decidable (a.1 ≤ b.1))

instance {β : Type} : IsTotal (ℕ × β) keyLe := ⟨fun a b => Nat.le_total a.1 b.1⟩

instance {β : Type} : IsTrans (ℕ × β) keyLe := ⟨fun _ _ _ h h' => Nat.le_trans h h'⟩

/-- `sorted(data.keys())` together with the dict lookups along it:
the dict's entries in ascending date order. -/
def sortEntries {β : Type} (l : List (ℕ × β)) : List (ℕ × β) :=
  List.insertionSort keyLe l

/-- Loop body of `merge_and_calculate` (download_complete_data.py,
lines 352-376): recompute the three rate fields of one bar from the
previous close (`None` on the first day). -/
def mcRates (prev_close : Option ℚ) (b : Bar) : Bar :=
  let overnight_rate : ℚ := match prev_close with
    | none => 0
    | some pc => (b.popen - pc) / pc * 100
  let combined_rate : ℚ := match prev_close with
    | none => 0
    | some pc => (b.pclose - pc) / pc * 100
  let day_rate : ℚ := (b.pclose - b.popen) / b.popen * 100
  { b with overnight_rate := round6 overnight_rate,
           day_rate := round6 day_rate,
           rate := round6 combined_rate }

/-- The `for i, date in enumerate(sorted_dates)` loop of
`merge_and_calculate`, threading `prev_close`. -/
def mcLoop : Option ℚ → Series → Series
  | _, [] => []
  | prev_close, (d, b) :: rest => (d, mcRates prev_close b) :: mcLoop (some b.pclose) rest

/-- `merge_and_calculate` (download_complete_data.py, lines 342-379):
sort by date and recompute overnight/day/combined rates end to end. -/
def merge_and_calculate (data_dict : Series) : Series :=
  mcLoop none (sortEntries data_dict)

/-- Loop body of `recalc_rates_full` (regenerate_tqqq.py, lines 64-78):
like `mcRates` but with `prev_close > 0` and `open > 0` guards. -/
def rrfRates (prev_close : Option ℚ) (b : Bar) : Bar :=
  let overnight : ℚ := match prev_close with
    | none => 0
    | some pc => if pc > 0 then (b.popen / pc - 1) * 100 else 0
  let combined : ℚ := match prev_close with
    | none => 0
    | some pc => if pc > 0 then (b.pclose / pc - 1) * 100 else 0
  let day_rate : ℚ := if b.popen > 0 then (b.pclose / b.popen - 1) * 100 else 0
  { b with overnight_rate := round6 overnight,
           day_rate := round6 day_rate,
           rate := round6 combined }

/-- The date loop of `recalc_rates_full`. -/
def rrfLoop : Option ℚ → Series → Series
  | _, [] => []
  | prev_close, (d, b) :: rest => (d, rrfRates prev_close b) :: rrfLoop (some b.pclose) rest

/-- `recalc_rates_full` (regenerate_tqqq.py, lines 60-79). -/
def recalc_rates_full (data : Series) : Series :=
  rrfLoop none (sortEntries data)

/-- The running state of `simulate_leveraged_etf_from_underlying`'s day
loop: previous leveraged close and previous underlying close. -/
structure SimState where
  prev_close_t : ℚ
  prev_close_u : ℚ
deriving DecidableEq

/-- One day of the leveraged simulation (download_complete_data.py,
lines 478-511): degenerate guard, leveraged overnight and intraday
phases, daily fee at the close, and the emitted (rounded) bar. -/
def simStep (leverage tracking_error_daily fee_daily borrow_fee_daily extra_daily_drift : ℚ)
    (st : SimState) (b : Bar) : Bar × SimState :=
  if st.prev_close_u ≤ 0 ∨ b.popen ≤ 0 ∨ b.pclose ≤ 0 then
    ({ popen := round6 st.prev_close_t, pclose := round6 st.prev_close_t,
       overnight_rate := 0, day_rate := 0, rate := 0 }, st)
  else
    let r_o := b.popen / st.prev_close_u - 1
    let r_d := b.pclose / b.popen - 1
    let t_open := st.prev_close_t * (1 + leverage * r_o + tracking_error_daily / 2)
    let t_close_raw := t_open * (1 + leverage * r_d + tracking_error_daily / 2)
    let pre_fee_factor := 1 - fee_daily - borrow_fee_daily
    let total_fee_factor := if pre_fee_factor ≤ 0 then 1/1000000 else pre_fee_factor
    let t_close := t_close_raw * total_fee_factor * (1 + extra_daily_drift)
    let overnight_rate := (t_open / st.prev_close_t - 1) * 100
    let day_rate := (t_close / t_open - 1) * 100
    let combined := (t_close / st.prev_close_t - 1) * 100
    ({ popen := round6 t_open, pclose := round6 t_close,
       overnight_rate := round6 overnight_rate, day_rate := round6 day_rate,
       rate := round6 combined },
     { prev_close_t := t_close, prev_close_u := b.pclose })

/-- The `for d in dates[1:]` loop of the simulation. -/
def simLoop (leverage tracking_error_daily fee_daily borrow_fee_daily extra_daily_drift : ℚ) :
    SimState → Series → Series
  | _, [] => []
  | st, (d, b) :: rest =>
    let s := simStep leverage tracking_error_daily fee_daily borrow_fee_daily extra_daily_drift st b
    (d, s.1) :: simLoop leverage tracking_error_daily fee_daily borrow_fee_daily extra_daily_drift s.2 rest

/-- The residual-collection loop of the calibration block
(download_complete_data.py, lines 428-439), over the overlap entries of
the sorted underlying series.  `prev_u` is always advanced; `prev_real`
only when a residual is recorded. -/
def calibLoop (leverage fee_daily : ℚ) (real : Series) :
    ℚ → Option ℚ → Series → List ℚ
  | _, _, [] => []
  | prev_u, prev_real, (d, b) :: rest =>
    let u_now := b.pclose
    match prev_real, real.lookup d with
    | some pr, some rb =>
      let r_u := u_now / prev_u - 1
      let r_real := rb.pclose / pr - 1
      (r_real - (leverage * r_u - fee_daily)) ::
        calibLoop leverage fee_daily real u_now (some rb.pclose) rest
    | _, _ => calibLoop leverage fee_daily real u_now prev_real rest

/-- The aggregation step of the calibration block
(download_complete_data.py, lines 441-452): the tracking-error estimate
before capping, by configured method. -/
def aggregate_diffs (calibration_method : String) (trim_fraction : ℚ) (diffs : List ℚ) : ℚ :=
  let sorted_diffs := List.insertionSort (fun a b : ℚ => a ≤ b) diffs
  if calibration_method = "median" then
    let mid := sorted_diffs.length / 2
    if sorted_diffs.length % 2 = 1 then sorted_diffs.getD mid 0
    else (sorted_diffs.getD (mid - 1) 0 + sorted_diffs.getD mid 0) / 2
  else if calibration_method = "trimmed" then
    let k : ℕ := (⌊(sorted_diffs.length : ℚ) * trim_fraction⌋).toNat
    let core := if 0 < k then (sorted_diffs.drop k).take (sorted_diffs.length - k - k)
                else sorted_diffs
    if core = [] then 0 else core.sum / (core.length : ℚ)
  else if calibration_method = "mean" then
    sorted_diffs.sum / (sorted_diffs.length : ℚ)
  else 0

/-- The magnitude cap applied to the calibrated estimate
(download_complete_data.py, lines 454-457). -/
def capTrackingError (max_abs_tracking_error x : ℚ) : ℚ :=
  if x > max_abs_tracking_error then max_abs_tracking_error
  else if x < -max_abs_tracking_error then -max_abs_tracking_error
  else x

/-- The calibration block (download_complete_data.py, lines 420-462),
given the sorted underlying entries and the real series. -/
def calibrateTrackingError (leverage fee_daily trim_fraction max_abs_tracking_error : ℚ)
    (calibration_method : String) (sorted : Series) (real : Series) : ℚ :=
  match sorted with
  | [] => 0
  | (first, fb) :: _ =>
    let overlaps := (sorted.filter (fun e => (real.lookup e.1).isSome)).drop 1
    if overlaps = [] then 0
    else
      let prev_real0 : Option ℚ := (real.lookup first).map Bar.pclose
      let diffs := calibLoop leverage fee_daily real fb.pclose prev_real0 overlaps
      if diffs = [] then 0
      else capTrackingError max_abs_tracking_error
        (aggregate_diffs calibration_method trim_fraction diffs)

/-- `simulate_leveraged_etf_from_underlying`
(download_complete_data.py, lines 381-513), parameters in source
order. -/
def simulate_leveraged_etf_from_underlying
    (underlying_data : Series)
    (leverage annual_expense_ratio trading_days_per_year : ℚ)
    (starting_price tracking_error_daily : Option ℚ)
    (calibrate_with_real : Option Series)
    (calibration_method : String)
    (trim_fraction max_abs_tracking_error additional_annual_borrow_cost extra_daily_drift : ℚ) :
    Series :=
  if underlying_data = [] then []
  else
    match sortEntries underlying_data with
    | [] => []
    | (first, fb) :: rest =>
      let first_close_under := fb.pclose
      let start_close := match starting_price with
        | none => first_close_under * leverage
        | some sp => sp
      let fee_daily := annual_expense_ratio / trading_days_per_year
      let borrow_fee_daily :=
        if additional_annual_borrow_cost > 0 then
          additional_annual_borrow_cost / trading_days_per_year
        else 0
      let te := match tracking_error_daily with
        | some t => t
        | none => match calibrate_with_real with
          | none => 0
          | some real =>
            if real ≠ [] ∧ calibration_method ≠ "none" then
              calibrateTrackingError leverage fee_daily trim_fraction max_abs_tracking_error
                calibration_method ((first, fb) :: rest) real
            else 0
      (first, { popen := round6 start_close, pclose := round6 start_close,
                overnight_rate := 0, day_rate := 0, rate := 0 }) ::
        simLoop leverage te fee_daily borrow_fee_daily extra_daily_drift
          { prev_close_t := start_close, prev_close_u := first_close_under } rest

/-- `min(d.keys())` over a dict's entries. -/
def minKey : Series → ℕ
  | [] => 0
  | e :: rest => rest.foldl (fun m x => if x.1 < m then x.1 else m) e.1

/-- `max(d.keys())` over a dict's entries. -/
def maxKey : Series → ℕ
  | [] => 0
  | e :: rest => rest.foldl (fun m x => if m < x.1 then x.1 else m) e.1

/-- `d[key]` for a key known to be present (dict indexing). -/
def lookupD (l : Series) (d : ℕ) : Bar := (l.lookup d).getD default

/-- The per-bar body of the splice's scaling dict comprehension
(download_complete_data.py, lines 691-698): multiply open and close by
the scaling factor, keep the three rate fields. -/
def scaleBar (scaling_factor : ℚ) (b : Bar) : Bar :=
  { popen := b.popen * scaling_factor,
    pclose := b.pclose * scaling_factor,
    overnight_rate := b.overnight_rate,
    day_rate := b.day_rate,
    rate := b.rate }

/-- `adjust_real_soxl_to_simulated` (download_complete_data.py, lines
663-705).  Python float division raises `ZeroDivisionError` when
`first_real_open == 0`; that exception is the `Except.error` case. -/
def adjust_real_soxl_to_simulated (simulated_soxl raw_real_soxl_data : Series) :
    Except String Series :=
  if simulated_soxl = [] ∨ raw_real_soxl_data = [] then .ok raw_real_soxl_data
  else
    let last_sim_close := (lookupD simulated_soxl (maxKey simulated_soxl)).pclose
    let first_real_open := (lookupD raw_real_soxl_data (minKey raw_real_soxl_data)).popen
    if first_real_open = 0 then .error "ZeroDivisionError"
    else
      let scaling_factor := last_sim_close / first_real_open
      .ok (raw_real_soxl_data.map (fun e => (e.1, scaleBar scaling_factor e.2)))

/-- A persisted bar of `download_stock` (download_stocks.py): fields
`rate`, `close`, `open` (as `popen`), `sma200`. -/
structure DSBar where
  rate : ℚ
  close : ℚ
  popen : ℚ
  sma200 : Option ℚ
deriving DecidableEq

instance : Inhabited DSBar := ⟨⟨0, 0, 0, none⟩⟩

/-- The 200-day trailing SMA expression shared by download_stocks.py
(lines 88-91) and daily_update.py (lines 334-337):
`None if i < 199 else sum(close_prices[i-199:i+1])/200`. -/
def smaAt (close_prices : List ℚ) (i : ℕ) : Option ℚ :=
  if i < 199 then none
  else some ((((close_prices.drop (i - 199)).take 200).sum) / 200)

/-- The `for i, (date_str, close_value, open_value) in enumerate(...)`
loop of `download_stock` (download_stocks.py, lines 80-99). -/
def dsLoop (close_prices : List ℚ) : ℕ → Option ℚ → List (ℕ × ℚ × ℚ) → List (ℕ × DSBar)
  | _, _, [] => []
  | i, prev_close, (date_str, close_value, open_value) :: rest =>
    let daily_return : ℚ := match prev_close with
      | none => 0
      | some pc => (close_value - pc) / pc * 100
    (date_str, { rate := daily_return, close := close_value, popen := open_value,
                 sma200 := smaAt close_prices i }) ::
      dsLoop close_prices (i + 1) (some close_value) rest

/-- The persisted-series construction of `download_stock`
(download_stocks.py, lines 60-99): sort the `(date, close, open)`
triples by date, then compute rate and SMA200 per index. -/
def download_stock_series (date_values : List (ℕ × ℚ × ℚ)) : List (ℕ × DSBar) :=
  let sorted := List.insertionSort keyLe date_values
  let close_prices := sorted.map (fun item => item.2.1)
  dsLoop close_prices 0 none sorted

/-- A bar as stored by daily_update.py: prices, three rates, and an
optional `sma200` (`None` until `calculate_metrics` fills it). -/
structure DUBar where
  popen : ℚ
  close : ℚ
  overnight_rate : ℚ
  day_rate : ℚ
  rate : ℚ
  sma200 : Option ℚ
deriving DecidableEq

instance : Inhabited DUBar := ⟨⟨0, 0, 0, 0, 0, none⟩⟩

/-- Python `existing.copy(); .update(new)` on dicts: existing entries
overridden in place by new values, new-only keys appended. -/
def dictUpdate (a b : List (ℕ × DUBar)) : List (ℕ × DUBar) :=
  (a.map (fun e => match b.lookup e.1 with | some v => (e.1, v) | none => e)) ++
    b.filter (fun e => (a.lookup e.1).isNone)

/-- The per-new-date body of `calculate_metrics` (daily_update.py,
lines 282-347).  The network call `get_latest_data_twelvedata` in the
stock-split branch is I/O and is modelled by the oracle `api_close`
(its close for the requested date, `none` when the fetch fails). -/
def duProcess (all_sorted : List (ℕ × DUBar)) (close_prices : List ℚ)
    (new_data : List (ℕ × DUBar)) (api_close : ℕ → Option ℚ)
    (i : ℕ) (e : ℕ × DUBar) : DUBar :=
  let close_value := e.2.close
  let open_value := e.2.popen
  let rates : ℚ × ℚ :=
    if i = 0 then (0, 0)
    else
      let prev := all_sorted.getD (i - 1) (0, default)
      let prev_close :=
        match new_data.lookup prev.1 with
        | some pb => pb.close
        | none =>
          let pc := prev.2.close
          if |open_value - pc| / pc > 3/10 then
            match api_close prev.1 with
            | some c => c
            | none => pc
          else pc
      ((open_value - prev_close) / prev_close * 100,
       (close_value - prev_close) / prev_close * 100)
  let day_rate := (close_value - open_value) / open_value * 100
  let sma200 := smaAt close_prices i
  { popen := open_value, close := close_value,
    overnight_rate := rates.1, day_rate := day_rate, rate := rates.2,
    sma200 := match sma200 with | none => some close_value | some s => some s }

/-- `calculate_metrics` (daily_update.py, lines 259-349): merge
existing and new data, then recompute rates and SMA200 for the new
dates over the chronologically sorted combined series (bars outside
`new_data` are left untouched; the persisted file is this series in
date order). -/
def calculate_metrics (existing_data new_data : List (ℕ × DUBar))
    (api_close : ℕ → Option ℚ) : List (ℕ × DUBar) :=
  let all_data := dictUpdate existing_data new_data
  let sorted_entries := List.insertionSort keyLe all_data
  let close_prices := sorted_entries.map (fun e => e.2.close)
  sorted_entries.enum.map (fun ie =>
    if (new_data.lookup ie.2.1).isSome then
      (ie.2.1, duProcess sorted_entries close_prices new_data api_close ie.1 ie.2)
    else ie.2)

/-- The §8 end-to-end fixture: underlying (open, close) pairs
`[(d0,100,102), (d1,101.5,99), (d2,98.5,103), (d3,104,105),
(d4,105.5,101)]` (test_tqqq_simulation.py's sample series). -/
def fixture_underlying : Series :=
  [(20240101, ⟨100, 102, 0, 0, 0⟩),
   (20240102, ⟨203/2, 99, 0, 0, 0⟩),
   (20240103, ⟨197/2, 103, 0, 0, 0⟩),
   (20240104, ⟨104, 105, 0, 0, 0⟩),
   (20240105, ⟨211/2, 101, 0, 0, 0⟩)]

/-- The fixture simulation: leverage 3, zero expense ratio, zero borrow
cost, zero tracking error, zero extra drift, starting price 100. -/
def fixture_sim : Series :=
  simulate_leveraged_etf_from_underlying fixture_underlying 3 0 252
    (some 100) (some 0) none "trimmed" (1/20) (1/5000) 0 0

theorem lookup_map_scale (l : Series) (g : Bar → Bar) (d : ℕ) :
    (l.map (fun e => (e.1, g e.2))).lookup d = (l.lookup d).map g := by
  induction l with
  | nil => rfl
  | cons e rest ih =>
    by_cases h : d = e.1
    · have hb : (d == e.1) = true := beq_iff_eq.mpr h
      simp [List.lookup, hb]
    · have hb : (d == e.1) = false := beq_eq_false_iff_ne.mpr h
      simp [List.lookup, hb, ih]

theorem simLoop_map_fst (leverage te fee borrow drift : ℚ) (st : SimState) (l : Series) :
    (simLoop leverage te fee borrow drift st l).map Prod.fst = l.map Prod.fst := by
  induction l generalizing st with
  | nil => rfl
  | cons e rest ih => exact congrArg (e.1 :: ·) (ih _)

/-- C6: a day on which the previous underlying close, the day's open or
the day's close is non-positive does not raise (the transition is a
total function): it emits a flat bar — open and close both equal to the
rounded previous leveraged close, i.e. exactly the previously emitted
close — with all three rates 0, and leaves the carried state (both the
leveraged close and the underlying close) unchanged.  `simStep` is the
per-day transition `simulate_leveraged_etf_from_underlying` folds over
the series, so this covers every such day of every run. -/
theorem degenerate_day_safety (leverage te fee borrow drift : ℚ) (st : SimState) (b : Bar)
    (h : st.prev_close_u ≤ 0 ∨ b.popen ≤ 0 ∨ b.pclose ≤ 0) :
    simStep leverage te fee borrow drift st b =
      ({ popen := round6 st.prev_close_t, pclose := round6 st.prev_close_t,
         overnight_rate := 0, day_rate := 0, rate := 0 }, st) := by
  rw [simStep, if_pos h]

theorem degenerate_day_safety_witness :
    simStep 3 0 0 0 0 ⟨100, 0⟩ ⟨5, 6, 0, 0, 0⟩ =
      ({ popen := round6 (100 : ℚ), pclose := round6 (100 : ℚ),
         overnight_rate := 0, day_rate := 0, rate := 0 }, ⟨100, 0⟩) :=
  degenerate_day_safety 3 0 0 0 0 ⟨100, 0⟩ ⟨5, 6, 0, 0, 0⟩ (Or.inl (le_refl 0))

/-- C10: for every underlying series the simulation emits exactly one
bar per underlying trading day — the output's date list is a
permutation of the input's (hence the date sets and multiplicities
coincide, degenerate days included) — and an empty input yields an
empty output. -/
theorem simulate_dates_preserved
    (leverage annual_expense_ratio trading_days_per_year : ℚ)
    (starting_price tracking_error_daily : Option ℚ)
    (calibrate_with_real : Option Series) (calibration_method : String)
    (trim_fraction max_abs_tracking_error additional_annual_borrow_cost extra_daily_drift : ℚ) :
    (∀ data : Series,
      ((simulate_leveraged_etf_from_underlying data leverage annual_expense_ratio
          trading_days_per_year starting_price tracking_error_daily calibrate_with_real
          calibration_method trim_fraction max_abs_tracking_error
          additional_annual_borrow_cost extra_daily_drift).map Prod.fst).Perm
        (data.map Prod.fst)) ∧
    simulate_leveraged_etf_from_underlying [] leverage annual_expense_ratio
      trading_days_per_year starting_price tracking_error_daily calibrate_with_real
      calibration_method trim_fraction max_abs_tracking_error
      additional_annual_borrow_cost extra_daily_drift = [] := by
  constructor
  · intro data
    by_cases hd : data = []
    · subst hd; simp [simulate_leveraged_etf_from_underlying]
    · have hperm : (sortEntries data).Perm data := List.perm_insertionSort keyLe data
      rcases hsort : sortEntries data with _ | ⟨⟨first, fb⟩, rest⟩
      · rw [hsort] at hperm
        exact absurd (List.Perm.nil_eq hperm).symm hd
      · rw [hsort] at hperm
        simp only [simulate_leveraged_etf_from_underlying, if_neg hd, hsort]
        have : ((first, fb) :: rest).map Prod.fst = first :: rest.map Prod.fst := rfl
        simp only [List.map_cons, simLoop_map_fst]
        exact hperm.map Prod.fst
  · simp [simulate_leveraged_etf_from_underlying]

/-- C2: with a non-empty simulated series, a non-empty real series and
a positive real first open, the splice succeeds and the scaled real
series' open on its earliest date equals the simulated series' close on
its latest date — exactly, in the rational model (the source computes
`first_real_open * (last_sim_close / first_real_open)`). -/
theorem splice_continuity (sim real : Series) (hs : sim ≠ []) (hr : real ≠ [])
    (hpos : 0 < (lookupD real (minKey real)).popen) :
    ∃ out, adjust_real_soxl_to_simulated sim real = Except.ok out ∧
      (lookupD out (minKey real)).popen = (lookupD sim (maxKey sim)).pclose := by
  rw [adjust_real_soxl_to_simulated, if_neg (not_or.mpr ⟨hs, hr⟩),
    if_neg (ne_of_gt hpos)]
  refine ⟨_, rfl, ?_⟩
  rcases hlk : real.lookup (minKey real) with _ | b
  · exfalso
    rw [lookupD, hlk] at hpos
    simp only [Option.getD_none] at hpos
    exact lt_irrefl 0 hpos
  · have hD : lookupD real (minKey real) = b := by rw [lookupD, hlk]; rfl
    rw [hD] at hpos
    rw [lookupD, lookup_map_scale, hlk]
    simp only [Option.map_some, Option.getD_some, scaleBar, hD]
    exact mul_div_cancel₀ _ (ne_of_gt hpos)

theorem splice_continuity_witness :
    ∃ out, adjust_real_soxl_to_simulated [(20100310, ⟨1, 3, 0, 0, 0⟩)]
        [(20100311, ⟨2, 4, 5, 6, 7⟩)] = Except.ok out ∧
      (lookupD out (minKey [(20100311, ⟨2, 4, 5, 6, 7⟩)])).popen =
        (lookupD [(20100310, ⟨1, 3, 0, 0, 0⟩)]
          (maxKey [(20100310, ⟨1, 3, 0, 0, 0⟩)])).pclose :=
  splice_continuity _ _ (by simp) (by simp)
    (by norm_num [lookupD, minKey, List.lookup])

/-- C4: when the splice scales (non-empty inputs, non-zero real first
open), the output has exactly the real series' dates in the same
positions, each bar's open and close are the originals multiplied by
the single factor `last_sim_close / first_real_open`, and the three
rate fields of every bar are identical before and after. -/
theorem splice_return_invariance (sim real : Series) (hs : sim ≠ []) (hr : real ≠ [])
    (h0 : (lookupD real (minKey real)).popen ≠ 0) :
    ∃ out, adjust_real_soxl_to_simulated sim real = Except.ok out ∧
      out.map Prod.fst = real.map Prod.fst ∧
      List.Forall₂ (fun e e' : ℕ × Bar =>
        e'.2.popen = e.2.popen *
          ((lookupD sim (maxKey sim)).pclose / (lookupD real (minKey real)).popen) ∧
        e'.2.pclose = e.2.pclose *
          ((lookupD sim (maxKey sim)).pclose / (lookupD real (minKey real)).popen) ∧
        e'.2.overnight_rate = e.2.overnight_rate ∧
        e'.2.day_rate = e.2.day_rate ∧
        e'.2.rate = e.2.rate) real out := by
  rw [adjust_real_soxl_to_simulated, if_neg (not_or.mpr ⟨hs, hr⟩), if_neg h0]
  refine ⟨_, rfl, by simp, ?_⟩
  rw [List.forall₂_map_right_iff]
  rw [List.forall₂_same]
  intro e _
  exact ⟨rfl, rfl, rfl, rfl, rfl⟩

theorem splice_return_invariance_witness :
    ∃ out, adjust_real_soxl_to_simulated [(20100310, ⟨1, 3, 0, 0, 0⟩)]
        [(20100311, ⟨2, 4, 5, 6, 7⟩)] = Except.ok out ∧
      out.map Prod.fst = [(20100311, (⟨2, 4, 5, 6, 7⟩ : Bar))].map Prod.fst ∧
      List.Forall₂ (fun e e' : ℕ × Bar =>
        e'.2.popen = e.2.popen *
          ((lookupD [(20100310, ⟨1, 3, 0, 0, 0⟩)]
              (maxKey [(20100310, ⟨1, 3, 0, 0, 0⟩)])).pclose /
            (lookupD [(20100311, ⟨2, 4, 5, 6, 7⟩)]
              (minKey [(20100311, ⟨2, 4, 5, 6, 7⟩)])).popen) ∧
        e'.2.pclose = e.2.pclose *
          ((lookupD [(20100310, ⟨1, 3, 0, 0, 0⟩)]
              (maxKey [(20100310, ⟨1, 3, 0, 0, 0⟩)])).pclose /
            (lookupD [(20100311, ⟨2, 4, 5, 6, 7⟩)]
              (minKey [(20100311, ⟨2, 4, 5, 6, 7⟩)])).popen) ∧
        e'.2.overnight_rate = e.2.overnight_rate ∧
        e'.2.day_rate = e.2.day_rate ∧
        e'.2.rate = e.2.rate) [(20100311, ⟨2, 4, 5, 6, 7⟩)] out :=
  splice_return_invariance _ _ (by simp) (by simp)
    (by norm_num [lookupD, minKey, List.lookup])

/-- C7 counterexample: the claim demands a distinct failure for a
*negative* real first open, but the splice only divides — a negative
first open silently succeeds.  Here `first_real_open = -1` and
`last_sim_close = 3`, so the sign-corrupting factor `-3` is applied to
every bar (open `-1 ↦ 3`, close `-2 ↦ 6`) and the call returns
`Except.ok`, not an error. -/
theorem splice_negative_open_counterexample :
    adjust_real_soxl_to_simulated [(20100310, ⟨1, 3, 0, 0, 0⟩)]
        [(20100311, ⟨-1, -2, 1, 2, 5⟩)] =
      Except.ok [(20100311, ⟨3, 6, 1, 2, 5⟩)] := by
  rw [adjust_real_soxl_to_simulated]
  norm_num [lookupD, minKey, maxKey, List.lookup, scaleBar]

/-- C7 amended: the splice fails with a distinct error
(`ZeroDivisionError` from the scaling division) exactly when the real
series' first open is zero; a strictly negative first open is not
rejected — the operation silently returns a scaled series (built with a
negative scaling factor). -/
theorem splice_precondition_amended (sim real : Series) (hs : sim ≠ []) (hr : real ≠ []) :
    ((lookupD real (minKey real)).popen = 0 →
      adjust_real_soxl_to_simulated sim real = Except.error "ZeroDivisionError") ∧
    ((lookupD real (minKey real)).popen < 0 →
      ∃ out, adjust_real_soxl_to_simulated sim real = Except.ok out) := by
  constructor
  · intro h0
    rw [adjust_real_soxl_to_simulated, if_neg (not_or.mpr ⟨hs, hr⟩), if_pos h0]
  · intro hneg
    rw [adjust_real_soxl_to_simulated, if_neg (not_or.mpr ⟨hs, hr⟩),
      if_neg (ne_of_lt hneg)]
    exact ⟨_, rfl⟩

theorem splice_precondition_amended_witness :
    ((lookupD [(20100311, ⟨0, 4, 5, 6, 7⟩)]
        (minKey [(20100311, ⟨0, 4, 5, 6, 7⟩)])).popen = 0 →
      adjust_real_soxl_to_simulated [(20100310, ⟨1, 3, 0, 0, 0⟩)]
        [(20100311, ⟨0, 4, 5, 6, 7⟩)] = Except.error "ZeroDivisionError") ∧
    ((lookupD [(20100311, ⟨0, 4, 5, 6, 7⟩)]
        (minKey [(20100311, ⟨0, 4, 5, 6, 7⟩)])).popen < 0 →
      ∃ out, adjust_real_soxl_to_simulated [(20100310, ⟨1, 3, 0, 0, 0⟩)]
        [(20100311, ⟨0, 4, 5, 6, 7⟩)] = Except.ok out) :=
  splice_precondition_amended _ _ (by simp) (by simp)

/-- C8 counterexample: for the non-empty residual set
`[0.01, 0.03]` and trim fraction `0.5`, trimming removes
`k = floor(2*0.5) = 1` residual from each tail — everything — and the
code yields `0.0`, not the untrimmed mean `0.02` demanded by the
claim's fallback clause. -/
theorem trimmed_fallback_counterexample :
    aggregate_diffs "trimmed" (1/2) [1/100, 3/100] = 0 ∧
    ([(1 : ℚ)/100, 3/100].sum / (([(1 : ℚ)/100, 3/100].length : ℕ) : ℚ)) ≠ 0 := by
  constructor
  · rw [aggregate_diffs]
    norm_num [List.insertionSort, List.orderedInsert]
    decide
  · norm_num

/-- C8 amended: for the `trimmed` method on a non-empty residual set
with a non-negative trim fraction (Python list slicing matches this
embedding only for a non-negative trim count), the pre-cap estimate is:
the untrimmed mean when the trim count `k = floor(n*frac)` is zero; the
mean of the sorted residuals with `k` removed from each tail when that
leaves at least one residual; and `0.0` — not the untrimmed mean — when
trimming would remove every residual. -/
theorem trimmed_aggregation_amended (diffs : List ℚ) (trim_fraction : ℚ)
    (hne : diffs ≠ []) (hf : 0 ≤ trim_fraction) :
    aggregate_diffs "trimmed" trim_fraction diffs =
      (if (⌊(diffs.length : ℚ) * trim_fraction⌋).toNat = 0 then
        (List.insertionSort (fun a b : ℚ => a ≤ b) diffs).sum / ((diffs.length : ℕ) : ℚ)
      else if 2 * (⌊(diffs.length : ℚ) * trim_fraction⌋).toNat < diffs.length then
        (((List.insertionSort (fun a b : ℚ => a ≤ b) diffs).drop
              (⌊(diffs.length : ℚ) * trim_fraction⌋).toNat).take
            (diffs.length - 2 * (⌊(diffs.length : ℚ) * trim_fraction⌋).toNat)).sum /
          ((diffs.length - 2 * (⌊(diffs.length : ℚ) * trim_fraction⌋).toNat : ℕ) : ℚ)
      else 0) := by
  have hperm := List.perm_insertionSort (fun a b : ℚ => a ≤ b) diffs
  have hlen : (List.insertionSort (fun a b : ℚ => a ≤ b) diffs).length = diffs.length :=
    List.length_insertionSort _ _
  have hsne : List.insertionSort (fun a b : ℚ => a ≤ b) diffs ≠ [] := by
    intro h
    rw [h] at hperm
    exact hne (List.Perm.nil_eq hperm).symm
  rw [aggregate_diffs]
  simp only [if_neg (show ¬("trimmed" = "median") from by decide),
    if_pos (show ("trimmed" = "trimmed") from rfl), hlen]
  by_cases hk : (⌊(diffs.length : ℚ) * trim_fraction⌋).toNat = 0
  · rw [hk]
    simp only [lt_irrefl, if_false, if_pos rfl]
    rw [if_neg hsne, hlen]
    simp
  · have hkpos : 0 < (⌊(diffs.length : ℚ) * trim_fraction⌋).toNat := Nat.pos_of_ne_zero hk
    rw [if_pos hkpos, if_neg hk]
    set k := (⌊(diffs.length : ℚ) * trim_fraction⌋).toNat with hkdef
    have hsub : diffs.length - k - k = diffs.length - 2 * k := by omega
    by_cases h2 : 2 * k < diffs.length
    · rw [if_pos h2]
      have hcorelen :
          (((List.insertionSort (fun a b : ℚ => a ≤ b) diffs).drop k).take
            (diffs.length - k - k)).length = diffs.length - 2 * k := by
        rw [List.length_take, List.length_drop, hlen]
        omega
      have hcorene :
          ((List.insertionSort (fun a b : ℚ => a ≤ b) diffs).drop k).take
            (diffs.length - k - k) ≠ [] := by
        apply List.ne_nil_of_length_pos
        rw [hcorelen]
        omega
      rw [if_neg hcorene, hcorelen, hsub]
      simp
    · rw [if_neg h2]
      have hcorenil :
          ((List.insertionSort (fun a b : ℚ => a ≤ b) diffs).drop k).take
            (diffs.length - k - k) = [] := by
        have : diffs.length - k - k = 0 := by omega
        rw [this, List.take_zero]
      rw [if_pos hcorenil]
      simp

theorem trimmed_aggregation_amended_witness :
    aggregate_diffs "trimmed" (1/3) [2, 4, 6] =
      (if (⌊(([(2 : ℚ), 4, 6].length : ℕ) : ℚ) * (1/3)⌋).toNat = 0 then
        (List.insertionSort (fun a b : ℚ => a ≤ b) [2, 4, 6]).sum / (([(2 : ℚ), 4, 6].length : ℕ) : ℚ)
      else if 2 * (⌊(([(2 : ℚ), 4, 6].length : ℕ) : ℚ) * (1/3)⌋).toNat < [(2 : ℚ), 4, 6].length then
        (((List.insertionSort (fun a b : ℚ => a ≤ b) [2, 4, 6]).drop
              (⌊(([(2 : ℚ), 4, 6].length : ℕ) : ℚ) * (1/3)⌋).toNat).take
            ([(2 : ℚ), 4, 6].length - 2 * (⌊(([(2 : ℚ), 4, 6].length : ℕ) : ℚ) * (1/3)⌋).toNat)).sum /
          (([(2 : ℚ), 4, 6].length - 2 * (⌊(([(2 : ℚ), 4, 6].length : ℕ) : ℚ) * (1/3)⌋).toNat : ℕ) : ℚ)
      else 0) :=
  trimmed_aggregation_amended [2, 4, 6] (1/3) (by simp) (by norm_num)

theorem dsLoop_sma (cp : List ℚ) (l : List (ℕ × ℚ × ℚ)) :
    ∀ (j : ℕ) (p : Option ℚ) (i : ℕ), i < l.length →
      ((dsLoop cp j p l)[i]?).map (fun e => e.2.sma200) = some (smaAt cp (j + i)) := by
  induction l with
  | nil => intro j p i hi; simp at hi
  | cons a rest ih =>
    intro j p i hi
    rcases a with ⟨d, c, o⟩
    match i with
    | 0 => simp [dsLoop]
    | Nat.succ n =>
      have hn : n < rest.length := by simpa using hi
      have := ih (j + 1) (some c) n hn
      rw [show dsLoop cp j p ((d, c, o) :: rest) =
          (d, { rate := match p with
                        | none => 0
                        | some pc => (c - pc) / pc * 100,
                close := c, popen := o, sma200 := smaAt cp j }) ::
            dsLoop cp (j + 1) (some c) rest from rfl,
        List.getElem?_cons_succ, this]
      have harith : j + 1 + n = j + (n + 1) := by omega
      rw [harith]

/-- C5 amended: the initial-download path (`download_stock`) persists
`sma200 = None` at 0-based chronological index `i < 199` and the
arithmetic mean of the 200 closes at indices `[i-199, i]` otherwise;
the daily-update recomputation (`calculate_metrics`), however, persists
the bar's *own close value* instead of null whenever `i < 199` (the
"backward compatibility" substitution at daily_update.py line 345), and
the 200-day mean for `i ≥ 199`.  `duProcess` is the per-new-date body
that `calculate_metrics` applies at sorted index `i`. -/
theorem sma_window_amended :
    (∀ (date_values : List (ℕ × ℚ × ℚ)) (i : ℕ), i < date_values.length →
      ((download_stock_series date_values)[i]?).map (fun e => e.2.sma200) =
        some (if i < 199 then none
          else some (((((List.insertionSort keyLe date_values).map
              (fun item => item.2.1)).drop (i - 199)).take 200).sum / 200))) ∧
    (∀ (all_sorted : List (ℕ × DUBar)) (close_prices : List ℚ)
        (new_data : List (ℕ × DUBar)) (api_close : ℕ → Option ℚ) (i : ℕ) (e : ℕ × DUBar),
      (duProcess all_sorted close_prices new_data api_close i e).sma200 =
        if i < 199 then some e.2.close
        else some ((((close_prices.drop (i - 199)).take 200).sum) / 200)) := by
  constructor
  · intro date_values i hi
    have hlen : (List.insertionSort keyLe date_values).length = date_values.length :=
      List.length_insertionSort _ _
    rw [download_stock_series]
    rw [dsLoop_sma _ _ 0 none i (by rw [hlen]; exact hi)]
    rw [Nat.zero_add, smaAt]
  · intro all_sorted close_prices new_data api_close i e
    by_cases h : i < 199
    · simp [duProcess, smaAt, h]
    · simp [duProcess, smaAt, h]

theorem sma_window_amended_witness :
    ((download_stock_series [(20240102, (7 : ℚ), (5 : ℚ))])[0]?).map (fun e => e.2.sma200) =
      some (if 0 < 199 then none
        else some (((((List.insertionSort keyLe [(20240102, (7 : ℚ), (5 : ℚ))]).map
            (fun item => item.2.1)).drop (0 - 199)).take 200).sum / 200)) :=
  sma_window_amended.1 [(20240102, 7, 5)] 0 (by simp)

/-- C5 counterexample: one brand-new bar (chronological index 0 < 199)
run through the daily-update recomputation is persisted with
`sma200 = 12` — its own close — not the null the claim requires for
every persisting code path. -/
theorem daily_update_sma_counterexample :
    calculate_metrics [] [(20240102, ⟨10, 12, 0, 0, 0, none⟩)] (fun _ => none) =
      [(20240102, ⟨10, 12, 0, 20, 0, some 12⟩)] ∧
    (⟨10, 12, 0, 20, 0, some 12⟩ : DUBar).sma200 ≠ none := by
  constructor
  · rw [calculate_metrics]
    norm_num [dictUpdate, List.insertionSort, List.orderedInsert, keyLe, duProcess,
      smaAt, List.lookup, List.enum, List.enumFrom]
  · simp

theorem fixture_sort : sortEntries fixture_underlying = fixture_underlying := by
  rw [sortEntries, fixture_underlying]
  norm_num [List.insertionSort, List.orderedInsert, keyLe]

theorem fixture_step1 :
    simStep 3 0 0 0 0 ⟨100, 102⟩ ⟨203/2, 99, 0, 0, 0⟩ =
      (⟨24632353/250000, 91248913/1000000, -367647/250000, -7389163/1000000,
        -8751087/1000000⟩, ⟨314900/3451, 99⟩) := by
  rw [simStep]
  norm_num [round6_eq, Bar.mk.injEq, SimState.mk.injEq, Prod.ext_iff]

theorem fixture_step2 :
    simStep 3 0 0 0 0 ⟨314900/3451, 99⟩ ⟨197/2, 103, 0, 0, 0⟩ =
      (⟨44933177/500000, 51091531/500000, -94697/62500, 856599/62500,
        2995693/250000⟩, ⟨327496000/3204993, 103⟩) := by
  rw [simStep]
  norm_num [round6_eq, Bar.mk.injEq, SimState.mk.injEq, Prod.ext_iff]

theorem fixture_step3 :
    simStep 3 0 0 0 0 ⟨327496000/3204993, 103⟩ ⟨104, 105, 0, 0, 0⟩ =
      (⟨26289817/250000, 108192709/1000000, 2912621/1000000, 576923/200000,
        1176251/200000⟩, ⟨35715958000/330114279, 105⟩) := by
  rw [simStep]
  norm_num [round6_eq, Bar.mk.injEq, SimState.mk.injEq, Prod.ext_iff]

theorem fixture_step4 :
    simStep 3 0 0 0 0 ⟨35715958000/330114279, 105⟩ ⟨211/2, 101, 0, 0, 0⟩ =
      (⟨109738319/1000000, 3827839/40000, 1428571/1000000, -12796209/1000000,
        -288761/25000⟩, ⟨46659327531200/487578790083, 101⟩) := by
  rw [simStep]
  norm_num [round6_eq, Bar.mk.injEq, SimState.mk.injEq, Prod.ext_iff]

theorem fixture_sim_eval :
    fixture_sim =
      [(20240101, ⟨100, 100, 0, 0, 0⟩),
       (20240102, ⟨24632353/250000, 91248913/1000000, -367647/250000,
                   -7389163/1000000, -8751087/1000000⟩),
       (20240103, ⟨44933177/500000, 51091531/500000, -94697/62500,
                   856599/62500, 2995693/250000⟩),
       (20240104, ⟨26289817/250000, 108192709/1000000, 2912621/1000000,
                   576923/200000, 1176251/200000⟩),
       (20240105, ⟨109738319/1000000, 3827839/40000, 1428571/1000000,
                   -12796209/1000000, -288761/25000⟩)] := by
  rw [fixture_sim]
  rw [simulate_leveraged_etf_from_underlying]
  rw [if_neg (show ¬(fixture_underlying = []) from by simp [fixture_underlying])]
  rw [fixture_sort]
  norm_num [fixture_underlying, simLoop, fixture_step1, fixture_step2, fixture_step3,
    fixture_step4, round6_eq]

/-- C3 counterexample: on the fixture, day d1's simulated combined rate
is -8.751087%, whereas 3x the underlying's combined (close-to-close)
rate for that day is 3*((99/102-1)*100) = -8.8235294...%.  The v2 model
leverages the overnight and intraday phases separately, so its combined
rate compounds them — `(1+3r_o)(1+3r_d)-1` — which differs from
`3*((1+r_o)(1+r_d)-1)` by the cross term `6*r_o*r_d`; the claim's
"exactly 3 times the underlying's combined rate" therefore fails from
the first non-flat day on. -/
theorem lookup_head (d : ℕ) (b : Bar) (l : Series) :
    List.lookup d ((d, b) :: l) = some b := by
  simp [List.lookup]

theorem lookup_tail (d k : ℕ) (b : Bar) (l : Series) (h : d ≠ k) :
    List.lookup d ((k, b) :: l) = List.lookup d l := by
  have hb : (d == k) = false := beq_eq_false_iff_ne.mpr h
  simp [List.lookup, hb]

theorem fixture_combined_rate_counterexample :
    (fixture_sim.lookup 20240102).map Bar.rate = some (-8751087/1000000) ∧
    (-8751087/1000000 : ℚ) ≠ 3 * ((99/102 - 1) * 100) := by
  constructor
  · rw [fixture_sim_eval, lookup_tail _ _ _ _ (by decide), lookup_head]
    norm_num
  · norm_num

/-- C3 amended: on the fixture (leverage 3, zero fees/costs/tracking
error/drift, starting price 100), day 0 is flat at 100 with all rates
0, and each subsequent day's *overnight* and *day* rates are exactly 3x
the underlying's corresponding phase returns (rounded to 6 decimals at
emission), while the *combined* rate is the compound of the two
leveraged phases, `((1+3r_o)(1+3r_d)-1)*100` — not 3x the underlying's
combined rate. -/
theorem fixture_leveraged_rates_amended :
    fixture_sim.lookup 20240101 = some ⟨100, 100, 0, 0, 0⟩ ∧
    (fixture_sim.lookup 20240102).map (fun b => (b.overnight_rate, b.day_rate, b.rate)) =
      some (round6 (300 * ((203/2)/102 - 1)), round6 (300 * (99/(203/2) - 1)),
        round6 (((1 + 3*((203/2)/102 - 1)) * (1 + 3*(99/(203/2) - 1)) - 1) * 100)) ∧
    (fixture_sim.lookup 20240103).map (fun b => (b.overnight_rate, b.day_rate, b.rate)) =
      some (round6 (300 * ((197/2)/99 - 1)), round6 (300 * (103/(197/2) - 1)),
        round6 (((1 + 3*((197/2)/99 - 1)) * (1 + 3*(103/(197/2) - 1)) - 1) * 100)) ∧
    (fixture_sim.lookup 20240104).map (fun b => (b.overnight_rate, b.day_rate, b.rate)) =
      some (round6 (300 * (104/103 - 1)), round6 (300 * (105/104 - 1)),
        round6 (((1 + 3*(104/103 - 1)) * (1 + 3*(105/104 - 1)) - 1) * 100)) ∧
    (fixture_sim.lookup 20240105).map (fun b => (b.overnight_rate, b.day_rate, b.rate)) =
      some (round6 (300 * ((211/2)/105 - 1)), round6 (300 * (101/(211/2) - 1)),
        round6 (((1 + 3*((211/2)/105 - 1)) * (1 + 3*(101/(211/2) - 1)) - 1) * 100)) := by
  rw [fixture_sim_eval]
  refine ⟨by rw [lookup_head], ?_, ?_, ?_, ?_⟩
  · rw [lookup_tail _ _ _ _ (by decide), lookup_head]
    norm_num [round6_eq, Prod.ext_iff]
  · rw [lookup_tail _ _ _ _ (by decide), lookup_tail _ _ _ _ (by decide), lookup_head]
    norm_num [round6_eq, Prod.ext_iff]
  · rw [lookup_tail _ _ _ _ (by decide), lookup_tail _ _ _ _ (by decide),
      lookup_tail _ _ _ _ (by decide), lookup_head]
    norm_num [round6_eq, Prod.ext_iff]
  · rw [lookup_tail _ _ _ _ (by decide), lookup_tail _ _ _ _ (by decide),
      lookup_tail _ _ _ _ (by decide), lookup_tail _ _ _ _ (by decide), lookup_head]
    norm_num [round6_eq, Prod.ext_iff]

theorem mcRates_popen (prev : Option ℚ) (b : Bar) : (mcRates prev b).popen = b.popen := rfl

theorem mcRates_pclose (prev : Option ℚ) (b : Bar) : (mcRates prev b).pclose = b.pclose := rfl

theorem mcRates_idem (prev : Option ℚ) (b : Bar) :
    mcRates prev (mcRates prev b) = mcRates prev b := by
  simp [mcRates]

theorem mcRates_clear (prev : Option ℚ) (b : Bar) :
    mcRates prev (Bar.mk b.popen b.pclose 0 0 0) = mcRates prev b := by
  simp [mcRates]

theorem mcLoop_map_fst (prev : Option ℚ) (l : Series) :
    (mcLoop prev l).map Prod.fst = l.map Prod.fst := by
  induction l generalizing prev with
  | nil => rfl
  | cons e rest ih =>
    rcases e with ⟨d, b⟩
    simp [mcLoop, ih]

theorem mcLoop_idem (prev : Option ℚ) (l : Series) :
    mcLoop prev (mcLoop prev l) = mcLoop prev l := by
  induction l generalizing prev with
  | nil => rfl
  | cons e rest ih =>
    rcases e with ⟨d, b⟩
    simp only [mcLoop, mcRates_idem, mcRates_pclose, ih]

theorem mcLoop_clear (prev : Option ℚ) (l : Series) :
    mcLoop prev (l.map (fun e => (e.1, Bar.mk e.2.popen e.2.pclose 0 0 0))) = mcLoop prev l := by
  induction l generalizing prev with
  | nil => rfl
  | cons e rest ih =>
    rcases e with ⟨d, b⟩
    rw [List.map_cons, mcLoop, mcLoop, mcRates_clear]
    exact congrArg _ (ih _)

theorem mcLoop_lookup_proj (prev : Option ℚ) (l : Series) (d : ℕ) :
    ((mcLoop prev l).lookup d).map (fun b => (b.popen, b.pclose)) =
      (l.lookup d).map (fun b => (b.popen, b.pclose)) := by
  induction l generalizing prev with
  | nil => rfl
  | cons e rest ih =>
    rcases e with ⟨k, b⟩
    by_cases h : d = k
    · have hb : (d == k) = true := beq_iff_eq.mpr h
      simp [mcLoop, List.lookup, hb, mcRates]
    · have hb : (d == k) = false := beq_eq_false_iff_ne.mpr h
      simp [mcLoop, List.lookup, hb, ih]

theorem lookup_eq_of_perm :
    ∀ {l l' : Series}, l.Perm l' → (l.map Prod.fst).Nodup → ∀ d : ℕ,
      l.lookup d = l'.lookup d := by
  intro l l' h
  induction h with
  | nil => intro _ _; rfl
  | cons x _ ih =>
    intro nd d
    rcases x with ⟨k, b⟩
    simp only [List.map_cons, List.nodup_cons] at nd
    by_cases hd : d = k
    · have hb : (d == k) = true := beq_iff_eq.mpr hd
      simp [List.lookup, hb]
    · have hb : (d == k) = false := beq_eq_false_iff_ne.mpr hd
      simp [List.lookup, hb, ih nd.2 d]
  | swap x y t =>
    intro nd d
    rcases x with ⟨k1, b1⟩
    rcases y with ⟨k2, b2⟩
    simp only [List.map_cons, List.nodup_cons, List.mem_cons] at nd
    have hne : k2 ≠ k1 := fun h => nd.1 (Or.inl h)
    by_cases h2 : d = k2 <;> by_cases h1 : d = k1
    · exact absurd (h2.symm.trans h1) hne
    · have hb2 : (d == k2) = true := beq_iff_eq.mpr h2
      have hb1 : (d == k1) = false := beq_eq_false_iff_ne.mpr h1
      simp [List.lookup, hb1, hb2]
    · have hb2 : (d == k2) = false := beq_eq_false_iff_ne.mpr h2
      have hb1 : (d == k1) = true := beq_iff_eq.mpr h1
      simp [List.lookup, hb1, hb2]
    · have hb2 : (d == k2) = false := beq_eq_false_iff_ne.mpr h2
      have hb1 : (d == k1) = false := beq_eq_false_iff_ne.mpr h1
      simp [List.lookup, hb1, hb2]
  | trans hab _ ih1 ih2 =>
    intro nd d
    have nd2 := ((hab.map Prod.fst).nodup_iff).mp nd
    exact (ih1 nd d).trans (ih2 nd2 d)

/-- C9: `merge_and_calculate` on a series with unique dates returns a
mapping with exactly the input's dates, in strictly ascending date
order; every output bar keeps the input bar's open and close (only the
three rate fields are rewritten); running the recomputation twice gives
the same output as once; and the output does not depend on the rate
fields of the input (it is a pure function of the dated price series). -/
theorem merge_and_calculate_frame (data : Series)
    (hkeys : (data.map Prod.fst).Nodup) :
    ((merge_and_calculate data).map Prod.fst).Perm (data.map Prod.fst) ∧
    ((merge_and_calculate data).map Prod.fst).Pairwise (· < ·) ∧
    (∀ d : ℕ, ((merge_and_calculate data).lookup d).map (fun b => (b.popen, b.pclose)) =
      (data.lookup d).map (fun b => (b.popen, b.pclose))) ∧
    merge_and_calculate (merge_and_calculate data) = merge_and_calculate data ∧
    merge_and_calculate (data.map (fun e => (e.1, Bar.mk e.2.popen e.2.pclose 0 0 0))) =
      merge_and_calculate data := by
  have hperm : (sortEntries data).Perm data := List.perm_insertionSort keyLe data
  have hsorted : List.Sorted keyLe (sortEntries data) := List.sorted_insertionSort keyLe data
  have hkperm : ((sortEntries data).map Prod.fst).Perm (data.map Prod.fst) :=
    hperm.map Prod.fst
  have hndS : ((sortEntries data).map Prod.fst).Nodup := hkperm.nodup_iff.mpr hkeys
  have hmapfst : (merge_and_calculate data).map Prod.fst = (sortEntries data).map Prod.fst :=
    mcLoop_map_fst none (sortEntries data)
  refine ⟨?_, ?_, ?_, ?_, ?_⟩
  · rw [hmapfst]
    exact hkperm
  · rw [hmapfst]
    have hle : ((sortEntries data).map Prod.fst).Pairwise (· ≤ ·) :=
      List.pairwise_map.mpr hsorted
    exact (hle.and hndS).imp (fun h => lt_of_le_of_ne h.1 h.2)
  · intro d
    rw [merge_and_calculate, mcLoop_lookup_proj,
      lookup_eq_of_perm hperm hndS d]
  · have hsorted2 : List.Pairwise keyLe (merge_and_calculate data) := by
      rw [show List.Pairwise keyLe (merge_and_calculate data) ↔
          ((merge_and_calculate data).map Prod.fst).Pairwise (fun a b : ℕ => a ≤ b) from
        (@List.pairwise_map (ℕ × Bar) ℕ Prod.fst (fun a b : ℕ => a ≤ b)
          (merge_and_calculate data)).symm, hmapfst]
      exact List.pairwise_map.mpr hsorted
    rw [show merge_and_calculate (merge_and_calculate data) =
        mcLoop none (sortEntries (merge_and_calculate data)) from rfl,
      sortEntries, List.Sorted.insertionSort_eq hsorted2, merge_and_calculate, mcLoop_idem]
  · rw [merge_and_calculate, merge_and_calculate, sortEntries, sortEntries,
      ← List.map_insertionSort keyLe keyLe
        (fun e => (e.1, Bar.mk e.2.popen e.2.pclose 0 0 0)) data (fun _ _ _ _ => Iff.rfl),
      mcLoop_clear]

theorem merge_and_calculate_frame_witness :
    ((merge_and_calculate [(2, ⟨1, 2, 0, 0, 0⟩), (1, ⟨3, 4, 0, 0, 0⟩)]).map Prod.fst).Perm
      ([(2, (⟨1, 2, 0, 0, 0⟩ : Bar)), (1, ⟨3, 4, 0, 0, 0⟩)].map Prod.fst) ∧
    ((merge_and_calculate [(2, ⟨1, 2, 0, 0, 0⟩), (1, ⟨3, 4, 0, 0, 0⟩)]).map Prod.fst).Pairwise (· < ·) ∧
    (∀ d : ℕ, ((merge_and_calculate [(2, ⟨1, 2, 0, 0, 0⟩), (1, ⟨3, 4, 0, 0, 0⟩)]).lookup d).map
        (fun b => (b.popen, b.pclose)) =
      ([(2, (⟨1, 2, 0, 0, 0⟩ : Bar)), (1, ⟨3, 4, 0, 0, 0⟩)].lookup d).map
        (fun b => (b.popen, b.pclose))) ∧
    merge_and_calculate (merge_and_calculate [(2, ⟨1, 2, 0, 0, 0⟩), (1, ⟨3, 4, 0, 0, 0⟩)]) =
      merge_and_calculate [(2, ⟨1, 2, 0, 0, 0⟩), (1, ⟨3, 4, 0, 0, 0⟩)] ∧
    merge_and_calculate ([(2, (⟨1, 2, 0, 0, 0⟩ : Bar)), (1, ⟨3, 4, 0, 0, 0⟩)].map
        (fun e => (e.1, Bar.mk e.2.popen e.2.pclose 0 0 0))) =
      merge_and_calculate [(2, ⟨1, 2, 0, 0, 0⟩), (1, ⟨3, 4, 0, 0, 0⟩)] :=
  merge_and_calculate_frame [(2, ⟨1, 2, 0, 0, 0⟩), (1, ⟨3, 4, 0, 0, 0⟩)] (by simp)

theorem round6_err (x : ℚ) : |round6 x - x| ≤ 1/2000000 := by
  rw [round6]
  have h : |x * 1000000 - (round (x * 1000000) : ℤ)| ≤ 1/2 := abs_sub_round (x * 1000000)
  rw [abs_sub_comm] at h
  have heq : ((round (x * 1000000) : ℤ) : ℚ) / 1000000 - x
      = (((round (x * 1000000) : ℤ) : ℚ) - x * 1000000) / 1000000 := by ring
  rw [heq, abs_div, (by norm_num : |(1000000 : ℚ)| = 1000000)]
  linarith

theorem compound_tol (A B a b c : ℚ)
    (hA : 1/10 ≤ A) (hB : 1/10 ≤ B)
    (ha : |a| ≤ 1/200000000) (hb : |b| ≤ 1/200000000) (hc : |c| ≤ 1/200000000) :
    |(A + a) * (B + b) - (A * B + c)| ≤ 1/1000000 * (A * B + c) := by
  obtain ⟨ha1, ha2⟩ := abs_le.mp ha
  obtain ⟨hb1, hb2⟩ := abs_le.mp hb
  obtain ⟨hc1, hc2⟩ := abs_le.mp hc
  have hA0 : (0:ℚ) < A := by linarith
  have hB0 : (0:ℚ) < B := by linarith
  have hAB : (1:ℚ)/100 ≤ A * B := by nlinarith
  have hBle : B ≤ 10 * (A * B) := by nlinarith
  have hAle : A ≤ 10 * (A * B) := by nlinarith
  have haB1 : a * B ≤ (1/200000000) * B := mul_le_mul_of_nonneg_right ha2 hB0.le
  have haB2 : (-(1/200000000)) * B ≤ a * B := mul_le_mul_of_nonneg_right ha1 hB0.le
  have hbA1 : b * A ≤ (1/200000000) * A := mul_le_mul_of_nonneg_right hb2 hA0.le
  have hbA2 : (-(1/200000000)) * A ≤ b * A := mul_le_mul_of_nonneg_right hb1 hA0.le
  have habs : |a * b| ≤ (1/200000000) * (1/200000000) := by
    rw [abs_mul]
    exact mul_le_mul ha hb (abs_nonneg b) (by norm_num)
  obtain ⟨hab1, hab2⟩ := abs_le.mp habs
  have key : (A + a) * (B + b) - (A * B + c) = a * B + b * A + a * b - c := by ring
  rw [key, abs_le]
  constructor
  · linarith
  · linarith

theorem rrfRates_eq_mcRates (pc : ℚ) (bar : Bar) (hpc : 0 < pc) (ho : 0 < bar.popen) :
    rrfRates (some pc) bar = mcRates (some pc) bar := by
  have e1 : (bar.popen / pc - 1) * 100 = (bar.popen - pc) / pc * 100 := by
    field_simp
  have e2 : (bar.pclose / pc - 1) * 100 = (bar.pclose - pc) / pc * 100 := by
    field_simp
  have e3 : (bar.pclose / bar.popen - 1) * 100 = (bar.pclose - bar.popen) / bar.popen * 100 := by
    field_simp
  simp [rrfRates, mcRates, hpc, ho, e1, e2, e3]

/-- C1 amended: for every bar with a defined predecessor whose prices
are positive and not in extreme collapse (the overnight factor
`open/prev_close` and the day factor `close/open` each at least 1/10),
the three *rounded* percentage fields emitted by the rate recomputation
— `mcRates` is the loop body of `merge_and_calculate`, `rrfRates` that
of `recalc_rates_full` — satisfy the compounding identity within 1e-6
relative tolerance.  (The unrounded rates satisfy it exactly; rounding
each rate to 6 absolute decimals can exceed a *relative* 1e-6 when
`1 + rate/100` is below about 1e-5, which the collapse bound rules
out.) -/
theorem compounding_identity_amended (pc : ℚ) (bar : Bar)
    (hpc : 0 < pc) (hop : 0 < bar.popen) (hcl : 0 < bar.pclose)
    (hcol1 : pc ≤ 10 * bar.popen) (hcol2 : bar.popen ≤ 10 * bar.pclose) :
    |(1 + (mcRates (some pc) bar).overnight_rate / 100) *
        (1 + (mcRates (some pc) bar).day_rate / 100) -
      (1 + (mcRates (some pc) bar).rate / 100)| ≤
      1/1000000 * (1 + (mcRates (some pc) bar).rate / 100) ∧
    |(1 + (rrfRates (some pc) bar).overnight_rate / 100) *
        (1 + (rrfRates (some pc) bar).day_rate / 100) -
      (1 + (rrfRates (some pc) bar).rate / 100)| ≤
      1/1000000 * (1 + (rrfRates (some pc) bar).rate / 100) := by
  have hmc : |(1 + (mcRates (some pc) bar).overnight_rate / 100) *
        (1 + (mcRates (some pc) bar).day_rate / 100) -
      (1 + (mcRates (some pc) bar).rate / 100)| ≤
      1/1000000 * (1 + (mcRates (some pc) bar).rate / 100) := by
    have f1 : (mcRates (some pc) bar).overnight_rate =
        round6 ((bar.popen - pc) / pc * 100) := by simp [mcRates]
    have f2 : (mcRates (some pc) bar).day_rate =
        round6 ((bar.pclose - bar.popen) / bar.popen * 100) := by simp [mcRates]
    have f3 : (mcRates (some pc) bar).rate =
        round6 ((bar.pclose - pc) / pc * 100) := by simp [mcRates]
    rw [f1, f2, f3]
    have hA : 1/10 ≤ bar.popen / pc := by
      rw [le_div_iff hpc]; linarith
    have hB : 1/10 ≤ bar.pclose / bar.popen := by
      rw [le_div_iff hop]; linarith
    have e1 : 1 + round6 ((bar.popen - pc) / pc * 100) / 100 =
        bar.popen / pc +
          (round6 ((bar.popen - pc) / pc * 100) - (bar.popen - pc) / pc * 100) / 100 := by
      field_simp
      ring
    have e2 : 1 + round6 ((bar.pclose - bar.popen) / bar.popen * 100) / 100 =
        bar.pclose / bar.popen +
          (round6 ((bar.pclose - bar.popen) / bar.popen * 100) -
            (bar.pclose - bar.popen) / bar.popen * 100) / 100 := by
      field_simp
      ring
    have e3 : 1 + round6 ((bar.pclose - pc) / pc * 100) / 100 =
        (bar.popen / pc) * (bar.pclose / bar.popen) +
          (round6 ((bar.pclose - pc) / pc * 100) - (bar.pclose - pc) / pc * 100) / 100 := by
      field_simp
      ring
    rw [e1, e2, e3]
    apply compound_tol
    · exact hA
    · exact hB
    · rw [abs_div, (by norm_num : |(100:ℚ)| = 100)]
      have := round6_err ((bar.popen - pc) / pc * 100)
      linarith
    · rw [abs_div, (by norm_num : |(100:ℚ)| = 100)]
      have := round6_err ((bar.pclose - bar.popen) / bar.popen * 100)
      linarith
    · rw [abs_div, (by norm_num : |(100:ℚ)| = 100)]
      have := round6_err ((bar.pclose - pc) / pc * 100)
      linarith
  exact ⟨hmc, by rw [rrfRates_eq_mcRates pc bar hpc hop]; exact hmc⟩

theorem compounding_identity_amended_witness :
    |(1 + (mcRates (some 100) ⟨101, 102, 0, 0, 0⟩).overnight_rate / 100) *
        (1 + (mcRates (some 100) ⟨101, 102, 0, 0, 0⟩).day_rate / 100) -
      (1 + (mcRates (some 100) ⟨101, 102, 0, 0, 0⟩).rate / 100)| ≤
      1/1000000 * (1 + (mcRates (some 100) ⟨101, 102, 0, 0, 0⟩).rate / 100) ∧
    |(1 + (rrfRates (some 100) ⟨101, 102, 0, 0, 0⟩).overnight_rate / 100) *
        (1 + (rrfRates (some 100) ⟨101, 102, 0, 0, 0⟩).day_rate / 100) -
      (1 + (rrfRates (some 100) ⟨101, 102, 0, 0, 0⟩).rate / 100)| ≤
      1/1000000 * (1 + (rrfRates (some 100) ⟨101, 102, 0, 0, 0⟩).rate / 100) :=
  compounding_identity_amended 100 ⟨101, 102, 0, 0, 0⟩ (by norm_num) (by norm_num)
    (by norm_num) (by norm_num) (by norm_num)

/-- C1 counterexample: the two-bar series d0:(open 1, close 1),
d1:(open 3, close 0.000001) has positive prices, yet after
`merge_and_calculate`'s 6-decimal rounding the emitted bar d1 violates
the compounding identity's 1e-6 *relative* tolerance: the product side
is 0.00000099, the combined side 0.000001 — a relative error of 1%
(rounding to 6 absolute decimals destroys relative precision when
`1 + rate/100` is tiny). -/
theorem compounding_identity_counterexample :
    lookupD (merge_and_calculate
        [(20200101, ⟨1, 1, 0, 0, 0⟩), (20200102, ⟨3, 1/1000000, 0, 0, 0⟩)]) 20200102 =
      ⟨3, 1/1000000, 200, -99999967/1000000, -999999/10000⟩ ∧
    ¬(|(1 + (200 : ℚ)/100) * (1 + (-99999967/1000000 : ℚ)/100) -
        (1 + (-999999/10000 : ℚ)/100)| ≤
      1/1000000 * |1 + (-999999/10000 : ℚ)/100|) := by
  have hev : merge_and_calculate
      [(20200101, ⟨1, 1, 0, 0, 0⟩), (20200102, ⟨3, 1/1000000, 0, 0, 0⟩)] =
      [(20200101, ⟨1, 1, 0, 0, 0⟩),
       (20200102, ⟨3, 1/1000000, 200, -99999967/1000000, -999999/10000⟩)] := by
    rw [merge_and_calculate, sortEntries]
    norm_num [List.insertionSort, List.orderedInsert, keyLe, mcLoop, mcRates, round6_eq]
  constructor
  · rw [hev, lookupD, lookup_tail _ _ _ _ (by decide), lookup_head]
    rfl
  · intro h
    rw [abs_of_nonpos (by norm_num), abs_of_nonneg (by norm_num)] at h
    norm_num at h
